import Mathlib

/-!
Shallow embedding of the duplicate-detection core of the
`backend_authenzia` repository (the image-hashing utilities in
`imageProcessor.js` and the AI/duplicate service in `aiService.js`).

Conventions of the embedding:
* an image byte buffer is a `List Nat` of byte values;
* JavaScript numbers that only ever hold small integers are `Nat`;
  JavaScript floating point similarity/confidence arithmetic is modelled
  with `ℚ` (all values compared against the literals `0.85` and `0.9`
  in the source are dyadic rationals for which the `Float` and `ℚ`
  comparisons agree);
* JavaScript 32-bit bitwise semantics (`|`, `<<`) are modelled
  explicitly: shift counts are taken mod 32 and accumulator values are
  32-bit patterns;
* every external effectful call (crypto, sharp, fs, the Groq network
  call together with its JSON parsing) is an oracle field of `Env`,
  returning `Except String _`; a thrown/rejected JS error is `.error`;
* the body of each `try { … } catch { … }` is an `Except`-valued
  computation and the `catch` clause is the surrounding `match`.
-/

/-- An image byte buffer (the contents of a Node `Buffer`). -/
abbrev Buffer := List Nat

/-- Count of positions at which two character lists differ
(the body of the comparison loops in both `hammingDistance`
implementations; both loops run over equal-length strings). -/
def countDiffChars : List Char → List Char → Nat
  | c1 :: r1, c2 :: r2 => (if c1 = c2 then 0 else 1) + countDiffChars r1 r2
  | _, _ => 0

/-- JS `String.prototype.padEnd(n, c)`: append copies of `c` until the
length is `n` (no-op when the string is already at least that long). -/
def jsPadEnd (s : String) (n : Nat) (c : Char) : String :=
  ⟨s.data ++ List.replicate (n - s.length) c⟩

/-- Digits of `n` in base 16, most significant first, fuel-driven
(the fuel `n + 1` always suffices since dividing by 16 reaches 0
at least as fast as subtracting 1). -/
def hexDigitsCore : Nat → Nat → List Char → List Char
  | 0, _, acc => acc
  | fuel + 1, n, acc =>
    let d := Nat.digitChar (n % 16)
    let n' := n / 16
    if n' = 0 then d :: acc else hexDigitsCore fuel n' (d :: acc)

/-- Base-16 rendering of a natural number, as JS renders non-negative
integers with `Number.prototype.toString(16)` (lowercase digits). -/
def natToHex (n : Nat) : String :=
  ⟨hexDigitsCore (n + 1) n []⟩

/-- JS `Number.prototype.toString(16)` on an integer: negative values
are rendered as a minus sign followed by the hex digits of the
absolute value. -/
def jsToString16 (i : Int) : String :=
  if i < 0 then ⟨'-' :: (natToHex i.natAbs).data⟩ else natToHex i.toNat

/-- Reinterpret a 32-bit pattern as the JS `ToInt32` (two's complement)
signed value. -/
def toInt32 (bits : Nat) : Int :=
  if bits % 2 ^ 32 < 2 ^ 31 then (bits % 2 ^ 32 : Int)
  else (bits % 2 ^ 32 : Int) - 2 ^ 32

/-- The loop of `ImageProcessor.getImageHash`:
`for (i = 1; i < data.length; i++) if (data[i] > prevPixel) hash |= 1 << (i-1)`.
JS `<<` takes the shift count mod 32 and `|=` operates on 32-bit
patterns, so the accumulator is the 32-bit pattern
`hash ||| 2 ^ ((i-1) % 32)`.  `prev` is `prevPixel`, `i` is the index
of `cur` in the original data array. -/
def dHashLoop : Nat → Nat → Nat → List Nat → Nat
  | _, _, hash, [] => hash
  | prev, i, hash, cur :: rest =>
    dHashLoop cur (i + 1)
      (if prev < cur then hash ||| 2 ^ ((i - 1) % 32) else hash) rest

namespace ImageProcessor

/-- The 32-bit pattern computed by the hashing loop of
`ImageProcessor.getImageHash` on the 8×8 grayscale sample `data`
(on an empty array the loop body never runs and the hash stays 0). -/
def dHashBits : List Nat → Nat
  | [] => 0
  | d0 :: rest => dHashLoop d0 1 0 rest

/-- `ImageProcessor.hammingDistance(str1, str2)`: pad both strings with
`'0'` to the longer length, then count differing characters
position by position. -/
def hammingDistance (str1 str2 : String) : Nat :=
  let maxLength := max str1.length str2.length
  countDiffChars (jsPadEnd str1 maxLength '0').data (jsPadEnd str2 maxLength '0').data

/-- The record returned by `ImageProcessor.compareImages`. -/
structure CompareResult where
  hash1 : String
  hash2 : String
  distance : Nat
  similarity : ℚ
  isSimilar : Bool
  deriving DecidableEq, Repr

/-- The pure tail of `ImageProcessor.compareImages` once both hashes
are available: Hamming distance, similarity `1 - distance / 64`
(`maxDistance` is the literal 64), and the strict `> 0.85` threshold. -/
def compareImagesCore (hash1 hash2 : String) : CompareResult :=
  let distance := hammingDistance hash1 hash2
  let similarity : ℚ := 1 - (distance : ℚ) / 64
  { hash1 := hash1
    hash2 := hash2
    distance := distance
    similarity := similarity
    isSimilar := decide (similarity > (85 : ℚ) / 100) }

end ImageProcessor

/-- The JSON object parsed from the Groq chat response.  The prompt
forces the shape `{ "result": boolean, "message": string }`, but the
parsed object may lack either key; a missing key (JS `undefined`) is
`none`. -/
structure AIVerdict where
  result : Option Bool
  message : Option String
  deriving DecidableEq, Repr

/-- The oracle environment: every external, effectful call made by the
duplicate-detection pipeline.  A JS `throw` / rejected promise is
`.error msg`.
* `sha256`: `crypto.createHash('sha256').update(buf).digest('hex')`;
* `phashMod`: the module-level `let phash` variable of `aiService.js`
  (the oracle runs `phash.hash` on a temp file written from the
  buffer); in the shipped module the `import` is commented out, so the
  variable is never assigned — see `moduleEnv`;
* `sharp`: `sharp(buf).resize(8,8,cover).grayscale().raw().toBuffer()`,
  the 8×8 grayscale sample used by `getImageHash`;
* `readFile`: `fs.readFile(path)`;
* `groq`: the Groq chat completion on the two images, including
  `choices[0].message.content` extraction and `JSON.parse`; the parsed
  JSON object is modelled by `AIVerdict` below. -/
structure Env where
  sha256 : Buffer → Except String String
  phashMod : Option (Buffer → Except String String)
  sharp : Buffer → Except String (List Nat)
  readFile : String → Except String Buffer
  groq : Buffer → Buffer → Except String AIVerdict

namespace ImageProcessor

/-- `ImageProcessor.getImageHash`: sample the image to an 8×8 grayscale
grid, run the dHash loop and render the 32-bit signed result with
`toString(16)`; a decode failure is rethrown with a wrapped message. -/
def getImageHash (env : Env) (imageBuffer : Buffer) : Except String String :=
  match env.sharp imageBuffer with
  | .error e => .error ("Failed to generate image hash: " ++ e)
  | .ok data => .ok (jsToString16 (toInt32 (dHashBits data)))

/-- `ImageProcessor.compareImages`: hash both images and compare the
hash strings; failures are rethrown with a wrapped message. -/
def compareImages (env : Env) (image1Buffer image2Buffer : Buffer) :
    Except String CompareResult :=
  match getImageHash env image1Buffer with
  | .error e => .error ("Failed to compare images: " ++ e)
  | .ok hash1 =>
    match getImageHash env image2Buffer with
    | .error e => .error ("Failed to compare images: " ++ e)
    | .ok hash2 => .ok (compareImagesCore hash1 hash2)

end ImageProcessor

namespace AIService

/-- `AIService.calculateConfidence(aiResult, localComparison)`:
start from 0; if an AI result is present and has a defined `result`
key, add 0.6 for an affirmative and 0.4 otherwise; add
`similarity * 0.4`; clamp at 1. -/
def calculateConfidence (aiResult : Option AIVerdict)
    (localComparison : ImageProcessor.CompareResult) : ℚ :=
  let base : ℚ :=
    match aiResult with
    | some v =>
      match v.result with
      | some true => (6 : ℚ) / 10
      | some false => (4 : ℚ) / 10
      | none => 0
    | none => 0
  min (base + localComparison.similarity * ((4 : ℚ) / 10)) 1

/-- The `combinedResult` record built by `compareImagesWithAI`. -/
structure CombinedResult where
  isDuplicate : Bool
  confidence : ℚ
  aiMessage : Option String
  similarity : ℚ
  deriving DecidableEq, Repr

/-- The full record returned by `compareImagesWithAI`
(`{ aiResult, localComparison, combinedResult }`). -/
structure AICompareResult where
  aiResult : Option AIVerdict
  localComparison : ImageProcessor.CompareResult
  combinedResult : CombinedResult
  deriving DecidableEq, Repr

/-- The `combinedResult` object literal on the success path of
`compareImagesWithAI`:
`isDuplicate: parsedResponse.result || localComparison.isSimilar`
(JS `undefined` is falsy, so a missing `result` key contributes
`false`), `confidence: calculateConfidence(...)`,
`aiMessage: parsedResponse.message`,
`similarity: localComparison.similarity`. -/
def mkCombinedResult (parsedResponse : AIVerdict)
    (localComparison : ImageProcessor.CompareResult) : CombinedResult :=
  { isDuplicate := parsedResponse.result.getD false || localComparison.isSimilar
    confidence := calculateConfidence (some parsedResponse) localComparison
    aiMessage := parsedResponse.message
    similarity := localComparison.similarity }

/-- `AIService.compareImagesWithAI`: query the Groq model, parse its
JSON verdict, run the local hash comparison, and combine the two; on
any failure in that block, fall back to the local comparison alone;
if that also fails, throw `Both AI and local comparison failed`. -/
def compareImagesWithAI (env : Env) (image1Buffer image2Buffer : Buffer) :
    Except String AICompareResult :=
  match env.groq image1Buffer image2Buffer with
  | .ok parsedResponse =>
    match ImageProcessor.compareImages env image1Buffer image2Buffer with
    | .ok localComparison =>
      .ok { aiResult := some parsedResponse
            localComparison := localComparison
            combinedResult := mkCombinedResult parsedResponse localComparison }
    | .error e =>
      -- the local comparison threw inside the try block; the catch
      -- clause retries it, fails again and rethrows
      match ImageProcessor.compareImages env image1Buffer image2Buffer with
      | .ok localComparison =>
        .ok { aiResult := none
              localComparison := localComparison
              combinedResult :=
                { isDuplicate := localComparison.isSimilar
                  confidence := localComparison.similarity
                  aiMessage := some "AI service unavailable, using local comparison"
                  similarity := localComparison.similarity } }
      | .error _ => .error ("Both AI and local comparison failed: " ++ e)
  | .error e =>
    -- catch clause: fall back to local comparison only
    match ImageProcessor.compareImages env image1Buffer image2Buffer with
    | .ok localComparison =>
      .ok { aiResult := none
            localComparison := localComparison
            combinedResult :=
              { isDuplicate := localComparison.isSimilar
                confidence := localComparison.similarity
                aiMessage := some "AI service unavailable, using local comparison"
                similarity := localComparison.similarity } }
    | .error _ => .error ("Both AI and local comparison failed: " ++ e)

/-- The JS property access `aiComparison.result` performed by
`detectDuplicates` on the object returned by `compareImagesWithAI`.
That object has exactly the keys `aiResult`, `localComparison` and
`combinedResult`, so reading `.result` on it yields `undefined`
(`none`), which is falsy. -/
def jsFieldResult (_ : AICompareResult) : Option Bool := none

end AIService

/-- `asset.originalFile` sub-document: stored content hash and stored
file path; either key may be absent. -/
structure OrigFile where
  hash : Option String
  path : Option String
  deriving DecidableEq, Repr

/-- An existing asset record as consumed by `detectDuplicates`
(`_id` is the Mongo id, modelled as a `Nat`; `toString` on it is
injective, so id comparison is plain equality). -/
structure Asset where
  mongoId : Nat
  originalFile : Option OrigFile
  perceptualHash : Option String
  deriving DecidableEq, Repr

namespace AIService

/-- The `method` tag of a duplicate match pushed by `detectDuplicates`:
the string `'sha256'` (the spec calls this method `exact`) or
`'perceptual'`. -/
inductive MatchMethod where
  | sha256
  | perceptual
  deriving DecidableEq, Repr

/-- The `reason` string of a duplicate match, modelled structurally:
`'Exact hash match'`, `'Perceptual similarity: <percent>%'`, or one of
those with `' (AI confirmed)'` appended. -/
inductive Reason where
  | exactHashMatch
  | perceptualSimilarity (similarity : ℚ)
  | aiConfirmed (base : Reason)
  deriving DecidableEq, Repr

/-- One element of `results.matches`. -/
structure DupMatch where
  assetId : Nat
  method : MatchMethod
  confidence : ℚ
  reason : Reason
  deriving DecidableEq, Repr

/-- The `results.methods` record. -/
structure Methods where
  sha256 : Bool
  perceptual : Bool
  ai : Bool
  deriving DecidableEq, Repr

/-- The `results` object returned by `detectDuplicates`; the `error`
key is only present (`some`) on the outer catch path. -/
structure DupResults where
  isDuplicate : Bool
  confidence : ℚ
  -- the JS key is `matches`, a Lean keyword
  matchList : List DupMatch
  methods : Methods
  error : Option String
  deriving DecidableEq, Repr

/-- Instrumentation of a `detectDuplicates` run: whether
`generatePerceptualHash` was entered, and how many times
`compareImagesWithAI` (the AI judge) was called. -/
structure Trace where
  phashComputed : Bool
  aiCalls : Nat
  deriving DecidableEq, Repr

/-- The initial `results` literal of `detectDuplicates`. -/
def emptyResults : DupResults :=
  { isDuplicate := false
    confidence := 0
    matchList := []
    methods := { sha256 := false, perceptual := false, ai := false }
    error := none }

/-- The object returned by the outer `catch` of `detectDuplicates`. -/
def dupFallback (e : String) : DupResults :=
  { isDuplicate := false
    confidence := 0
    matchList := []
    methods := { sha256 := false, perceptual := false, ai := false }
    error := some e }

/-- The exact-match filter predicate
`asset.originalFile?.hash === sha256Hash` (optional chaining on a
missing `originalFile` yields `undefined`, which never equals a
string). -/
def assetHashIs (asset : Asset) (sha256Hash : String) : Bool :=
  match asset.originalFile with
  | some f => f.hash = some sha256Hash
  | none => false

/-- `AIService.hammingDistance(hash1, hash2)`: `Infinity` (`none`) when
the lengths differ, otherwise the count of differing characters. -/
def hammingDistance (hash1 hash2 : String) : Option Nat :=
  if hash1.length = hash2.length then some (countDiffChars hash1.data hash2.data)
  else none

/-- `AIService.generatePerceptualHash`: without the `phash` module fall
back to SHA-256; with it, hash via the module and fall back to SHA-256
if that throws (a failing SHA-256 fallback propagates). -/
def generatePerceptualHash (env : Env) (imageBuffer : Buffer) :
    Except String String :=
  match env.phashMod with
  | none => env.sha256 imageBuffer
  | some ph =>
    match ph imageBuffer with
    | .ok h => .ok h
    | .error _ => env.sha256 imageBuffer

/-- The per-candidate body of the Method-2 loop of `detectDuplicates`:
candidates whose `perceptualHash` is falsy (absent or the empty
string) are skipped; `similarity` is
`1 - distance / max(len1, len2)`, where a length mismatch makes the
distance `Infinity` (similarity `-Infinity`, never `> 0.85`); with
both strings non-empty the divisor is positive (for two empty strings
JS would compute `0/0 = NaN`, also never `> 0.85`, but that case is
unreachable past the falsiness check). -/
def perceptualMatchOf (perceptualHash : String) (asset : Asset) :
    Option DupMatch :=
  match asset.perceptualHash with
  | none => none
  | some stored =>
    if stored.isEmpty then none
    else
      match hammingDistance perceptualHash stored with
      | none => none
      | some distance =>
        let maxLen := max perceptualHash.length stored.length
        if maxLen = 0 then none
        else
          let similarity : ℚ := 1 - (distance : ℚ) / (maxLen : ℚ)
          if similarity > (85 : ℚ) / 100 then
            some { assetId := asset.mongoId
                   method := MatchMethod.perceptual
                   confidence := similarity
                   reason := Reason.perceptualSimilarity similarity }
          else none

/-- `Math.max(...matches.map(m => m.confidence))` over a non-empty
match list. -/
def maxConfidence (m : DupMatch) (rest : List DupMatch) : ℚ :=
  rest.foldl (fun acc cur => max acc cur.confidence) m.confidence

/-- `matches.reduce((prev, cur) => prev.confidence > cur.confidence ? prev : cur)`:
keep `prev` on a strict win, otherwise take `cur`. -/
def reduceTop (m : DupMatch) (rest : List DupMatch) : DupMatch :=
  rest.foldl (fun prev cur => if prev.confidence > cur.confidence then prev else cur) m

/-- Method 3 of `detectDuplicates` (AI verification of the top match):
runs only when `results.matches` is non-empty; looks up the matched
asset, requires a truthy `originalFile?.path`, reads the stored file
and calls `compareImagesWithAI`; errors of the read or of the AI call
are caught and logged; the `if (aiComparison.result)` upgrade branch
tests the nonexistent `result` key of the returned object.  Returns
the updated results together with the number of AI-judge calls. -/
def detectMethod3 (env : Env) (imageBuffer : Buffer) (assets : List Asset)
    (results : DupResults) : DupResults × Nat :=
  match results.matchList with
  | [] => (results, 0)
  | m :: rest =>
    let topMatch := reduceTop m rest
    match assets.find? (fun a => a.mongoId = topMatch.assetId) with
    | none => (results, 0)
    | some matchedAsset =>
      match matchedAsset.originalFile with
      | none => (results, 0)
      | some f =>
        match f.path with
        | none => (results, 0)
        | some p =>
          if p.isEmpty then (results, 0)  -- JS truthiness of the path
          else
            match env.readFile p with
            | .error _ => (results, 0)  -- caught: AI comparison failed
            | .ok existingImageBuffer =>
              match compareImagesWithAI env imageBuffer existingImageBuffer with
              | .error _ => (results, 1)  -- caught: AI comparison failed
              | .ok aiComparison =>
                match jsFieldResult aiComparison with
                | some true =>
                  ({ results with
                      methods := { results.methods with ai := true }
                      confidence := max results.confidence ((9 : ℚ) / 10)
                      matchList := results.matchList.map fun mm =>
                        if mm = topMatch
                        then { mm with reason := Reason.aiConfirmed mm.reason }
                        else mm },
                    1)
                | _ => (results, 1)

/-- The `try` block of `AIService.detectDuplicates`, paired with the
run's trace.  Method 1: SHA-256 exact match with early return.
Method 2: perceptual hashing, only when the module-level `phash`
variable is truthy.  Method 3: AI verification of the top match.
A `.error` is a JS exception escaping the block (possible only from
the SHA-256 call and from `generatePerceptualHash`). -/
def detectDuplicatesTry (env : Env) (imageBuffer : Buffer)
    (existingAssets : List Asset) : Except String DupResults × Trace :=
  match env.sha256 imageBuffer with
  | .error e => (.error e, { phashComputed := false, aiCalls := 0 })
  | .ok sha256Hash =>
    let exactMatches := existingAssets.filter fun a => assetHashIs a sha256Hash
    if exactMatches.length > 0 then
      (.ok { isDuplicate := true
             confidence := 1
             matchList := exactMatches.map fun a =>
               { assetId := a.mongoId
                 method := MatchMethod.sha256
                 confidence := 1
                 reason := Reason.exactHashMatch }
             methods := { sha256 := true, perceptual := false, ai := false }
             error := none },
        { phashComputed := false, aiCalls := 0 })
    else
      match env.phashMod with
      | none =>
        -- `if (phash)` is false: Method 2 is skipped and Method 3 sees
        -- an empty match list
        let (r, ai) := detectMethod3 env imageBuffer existingAssets emptyResults
        (.ok r, { phashComputed := false, aiCalls := ai })
      | some _ =>
        match generatePerceptualHash env imageBuffer with
        | .error e => (.error e, { phashComputed := true, aiCalls := 0 })
        | .ok perceptualHash =>
          let perceptualMatches :=
            existingAssets.filterMap (perceptualMatchOf perceptualHash)
          let results :=
            match perceptualMatches with
            | [] => emptyResults
            | m :: rest =>
              { isDuplicate := true
                confidence := maxConfidence m rest
                matchList := m :: rest
                methods := { sha256 := false, perceptual := true, ai := false }
                error := none }
          let (r, ai) := detectMethod3 env imageBuffer existingAssets results
          (.ok r, { phashComputed := true, aiCalls := ai })

/-- `AIService.detectDuplicates`: the `try` block wrapped in the outer
`catch`, which absorbs any escaped exception into a no-duplicate
result carrying the error message. -/
def detectDuplicates (env : Env) (imageBuffer : Buffer)
    (existingAssets : List Asset) : DupResults × Trace :=
  match detectDuplicatesTry env imageBuffer existingAssets with
  | (.ok r, t) => (r, t)
  | (.error e, t) => (dupFallback e, t)

end AIService

/-- Spec-side restatement of the padding rule (for the refinement
claim about `ImageProcessor.hammingDistance`): pad the shorter string
with the zero character to the longer string's length, then count
differing characters at matching positions. -/
def hammingDistancePadSpec (s1 s2 : String) : Nat :=
  if s1.length < s2.length then
    countDiffChars (s1.data ++ List.replicate (s2.length - s1.length) '0') s2.data
  else
    countDiffChars s1.data (s2.data ++ List.replicate (s1.length - s2.length) '0')

/-! ### Concrete inputs used by witnesses and counterexamples -/

/-- Environment for the `compareImages` witness: the decoder yields an
all-black 8×8 grid for every buffer. -/
def envC2 : Env :=
  { sha256 := fun _ => .ok "h"
    phashMod := none
    sharp := fun _ => .ok (List.replicate 64 0)
    readFile := fun _ => .error "no file"
    groq := fun _ _ => .error "offline" }

/-- The comparison record produced in the `envC2` run. -/
def rC2 : ImageProcessor.CompareResult := ImageProcessor.compareImagesCore "0" "0"

/-- Concrete 8×8 grayscale sample refuting the 64-bit reading of the
hash: all pixels black except pixel 33. -/
def dataC7 : List Nat := List.replicate 33 0 ++ [1] ++ List.replicate 30 0

/-- Environment for the exact-match runs: the content hash of every
buffer is `"h"`; no perceptual module, no files, no network. -/
def envC1 : Env :=
  { sha256 := fun _ => .ok "h"
    phashMod := none
    sharp := fun _ => .ok (List.replicate 64 0)
    readFile := fun _ => .error "no file"
    groq := fun _ _ => .error "offline" }

/-- First candidate whose stored hash collides with the upload. -/
def assetC1a : Asset :=
  { mongoId := 1
    originalFile := some { hash := some "h", path := none }
    perceptualHash := none }

/-- Second candidate with the same stored hash. -/
def assetC1b : Asset :=
  { mongoId := 2
    originalFile := some { hash := some "h", path := none }
    perceptualHash := none }

/-- Environment exercising the perceptual + AI path: the `phash`
module is present and yields `"00000000"`, the stored candidate file
is readable, and the AI judge affirms same-ness. -/
def envC4 : Env :=
  { sha256 := fun _ => .ok "s"
    phashMod := some fun _ => .ok "00000000"
    sharp := fun _ => .ok (List.replicate 64 0)
    readFile := fun _ => .ok [1]
    groq := fun _ _ => .ok { result := some true, message := some "same" } }

/-- Candidate whose stored perceptual hash is at distance 1 of the
upload's (similarity `7/8`), with a readable original file. -/
def assetC4 : Asset :=
  { mongoId := 7
    originalFile := some { hash := some "other", path := some "/p" }
    perceptualHash := some "00000001" }

/-- A local-comparison record reporting dissimilarity (Hamming
distance 10 on two 12-character hash strings). -/
def lcC5 : ImageProcessor.CompareResult :=
  { hash1 := "000000000000"
    hash2 := "111111111100"
    distance := 10
    similarity := 27 / 32
    isSimilar := false }

/-- Environment whose SHA-256 call itself throws. -/
def envC8 : Env :=
  { sha256 := fun _ => .error "boom"
    phashMod := none
    sharp := fun _ => .error "no decode"
    readFile := fun _ => .error "no file"
    groq := fun _ _ => .error "offline" }

/-- Specification of which comparisons feed bit `b` of the hash
accumulator: scanning the remaining pixels `rest` (current index `i`,
previous pixel `prev`), some comparison at index `i'` has
`(i' - 1) % 32 = b` and `pixel[i'] > pixel[i' - 1]`. -/
def adjBit (b : Nat) : Nat → Nat → List Nat → Bool
  | _, _, [] => false
  | prev, i, cur :: rs =>
    (decide ((i - 1) % 32 = b) && decide (prev < cur)) || adjBit b cur (i + 1) rs

/-! ### Helper lemmas -/

theorem countDiffChars_comm : ∀ (a b : List Char),
    countDiffChars a b = countDiffChars b a := by
  intro a
  induction a with
  | nil => intro b; cases b <;> rfl
  | cons c1 r1 ih =>
    intro b
    cases b with
    | nil => rfl
    | cons c2 r2 =>
      unfold countDiffChars
      rw [ih r2]
      congr 1
      by_cases h : c1 = c2
      · simp [h]
      · rw [if_neg h, if_neg fun hh => h hh.symm]

theorem countDiffChars_le (a : List Char) : ∀ (b : List Char),
    countDiffChars a b ≤ a.length := by
  induction a with
  | nil => intro b; cases b <;> simp [countDiffChars]
  | cons c1 r1 ih =>
    intro b
    cases b with
    | nil => simp [countDiffChars]
    | cons c2 r2 =>
      unfold countDiffChars
      have := ih r2
      by_cases h : c1 = c2 <;> simp [h, List.length_cons] <;> omega

theorem jsPadEnd_data_length (s : String) (n : Nat) (c : Char) :
    (jsPadEnd s n c).data.length = s.length + (n - s.length) := by
  show (s.data ++ List.replicate (n - s.length) c).length = s.length + (n - s.length)
  rw [List.length_append, List.length_replicate]
  rfl

theorem hammingDistance_le_max (s1 s2 : String) :
    ImageProcessor.hammingDistance s1 s2 ≤ max s1.length s2.length := by
  unfold ImageProcessor.hammingDistance
  calc countDiffChars (jsPadEnd s1 (max s1.length s2.length) '0').data
        (jsPadEnd s2 (max s1.length s2.length) '0').data
      ≤ (jsPadEnd s1 (max s1.length s2.length) '0').data.length :=
        countDiffChars_le _ _
    _ = max s1.length s2.length := by
        rw [jsPadEnd_data_length]
        have := Nat.le_max_left s1.length s2.length
        omega

theorem hammingDistance_comm (s1 s2 : String) :
    ImageProcessor.hammingDistance s1 s2 = ImageProcessor.hammingDistance s2 s1 := by
  unfold ImageProcessor.hammingDistance
  rw [Nat.max_comm s2.length s1.length, countDiffChars_comm]

theorem String_mk_length (l : List Char) : (String.mk l).length = l.length := rfl

theorem hexDigitsCore_length : ∀ (fuel n : Nat) (acc : List Char) (k : Nat),
    n < 16 ^ (k + 1) →
    (hexDigitsCore fuel n acc).length ≤ k + 1 + acc.length := by
  intro fuel
  induction fuel with
  | zero => intro n acc k _; exact Nat.le_add_left _ _
  | succ fuel ih =>
    intro n acc k hk
    unfold hexDigitsCore
    by_cases h0 : n / 16 = 0
    · simp [h0]; omega
    · simp only [h0, if_false]
      have h16 : 16 ≤ n := by
        rcases Nat.lt_or_ge n 16 with hlt | hge
        · exact absurd (Nat.div_eq_of_lt hlt) h0
        · exact hge
      cases k with
      | zero => simp at hk; omega
      | succ k' =>
        have hdiv : n / 16 < 16 ^ (k' + 1) := by
          rw [Nat.div_lt_iff_lt_mul (by norm_num : 0 < 16)]
          calc n < 16 ^ (k' + 2) := hk
            _ = 16 ^ (k' + 1) * 16 := by ring
        have := ih (n / 16) (Nat.digitChar (n % 16) :: acc) k' hdiv
        simp [List.length_cons] at this ⊢
        omega

theorem natToHex_length (n k : Nat) (h : n < 16 ^ (k + 1)) :
    (natToHex n).length ≤ k + 1 := by
  have := hexDigitsCore_length (n + 1) n [] k h
  simpa [natToHex, String_mk_length] using this

theorem jsToString16_length (i : Int) (h : i.natAbs ≤ 2 ^ 31) :
    (jsToString16 i).length ≤ 9 := by
  have habs : i.natAbs < 16 ^ 8 := by
    calc i.natAbs ≤ 2 ^ 31 := h
      _ < 16 ^ 8 := by norm_num
  unfold jsToString16
  by_cases hneg : i < 0
  · simp only [hneg, if_true]
    have hlen := natToHex_length i.natAbs 7 (by simpa using habs)
    rw [String_mk_length, List.length_cons]
    have : (natToHex i.natAbs).length = (natToHex i.natAbs).data.length := rfl
    omega
  · simp only [hneg, if_false]
    have htn : i.toNat = i.natAbs := by omega
    have := natToHex_length i.toNat 7 (by rw [htn]; simpa using habs)
    omega

theorem toInt32_natAbs (bits : Nat) : (toInt32 bits).natAbs ≤ 2 ^ 31 := by
  unfold toInt32
  have hm : bits % 2 ^ 32 < 2 ^ 32 := Nat.mod_lt _ (by norm_num)
  by_cases hlt : bits % 2 ^ 32 < 2 ^ 31
  · simp only [hlt, if_true]
    omega
  · simp only [hlt, if_false]
    omega

theorem getImageHash_length (env : Env) (b : Buffer) (h : String)
    (hok : ImageProcessor.getImageHash env b = .ok h) : h.length ≤ 9 := by
  unfold ImageProcessor.getImageHash at hok
  cases hsharp : env.sharp b with
  | error e => rw [hsharp] at hok; exact absurd hok (by simp)
  | ok data =>
    rw [hsharp] at hok
    simp only [Except.ok.injEq] at hok
    subst hok
    exact jsToString16_length _ (toInt32_natAbs _)

/-! ### Claim theorems: hash comparator (C2, C6, C9, C10) -/

/-- C2: for every pair of image buffers on which `getImageHash`
succeeds, `compareImages` reports `isSimilar = true`: the hash is the
base-16 string of a 32-bit signed integer and so has at most 9
characters, the character-wise Hamming distance is therefore at most
9, and the similarity `1 - distance/64` is at least `55/64 > 0.85`;
no pair of decodable images is ever reported dissimilar. -/
theorem compareImages_always_isSimilar (env : Env) (b1 b2 : Buffer)
    (r : ImageProcessor.CompareResult) :
    (∀ h : String, ImageProcessor.getImageHash env b1 = .ok h → h.length ≤ 9)
    ∧ (ImageProcessor.compareImages env b1 b2 = .ok r → r.isSimilar = true) := by
  constructor
  · intro h hok
    exact getImageHash_length env b1 h hok
  · intro hok
    unfold ImageProcessor.compareImages at hok
    cases h1ok : ImageProcessor.getImageHash env b1 with
    | error e => rw [h1ok] at hok; exact absurd hok (by simp)
    | ok hash1 =>
      rw [h1ok] at hok
      cases h2ok : ImageProcessor.getImageHash env b2 with
      | error e => rw [h2ok] at hok; exact absurd hok (by simp)
      | ok hash2 =>
        rw [h2ok] at hok
        simp only [Except.ok.injEq] at hok
        subst hok
        have hl1 := getImageHash_length env b1 hash1 h1ok
        have hl2 := getImageHash_length env b2 hash2 h2ok
        have hd : ImageProcessor.hammingDistance hash1 hash2 ≤ 9 := by
          have := hammingDistance_le_max hash1 hash2
          omega
        unfold ImageProcessor.compareImagesCore
        simp only
        rw [decide_eq_true_eq]
        have hdq : (ImageProcessor.hammingDistance hash1 hash2 : ℚ) ≤ 9 := by
          exact_mod_cast hd
        have hdiv : (ImageProcessor.hammingDistance hash1 hash2 : ℚ) / 64 ≤ 9 / 64 :=
          div_le_div_of_nonneg_right hdq (by norm_num)
        linarith

/-- Witness for C2 at a concrete run: with a decoder returning an
all-black 8×8 grid, both hashes are `"0"` and the comparison is
reported similar. -/
theorem compareImages_always_isSimilar_witness :
    ImageProcessor.compareImages envC2 [] [] = .ok rC2 ∧ rC2.isSimilar = true :=
  ⟨by with_unfolding_all rfl,
   (compareImages_always_isSimilar envC2 [] [] rC2).2 (by with_unfolding_all rfl)⟩

/-- C6: every comparison produced by the hash comparator has
`similarity = 1 - distance/64` (with `maxDistance` fixed at 64) and
`isSimilar` holds exactly when `similarity > 0.85`, the cutoff being
strict: Hamming distance 9 gives `isSimilar = true` and Hamming
distance 10 gives `isSimilar = false`. -/
theorem comparator_similarity_formula_and_strict_cutoff (h1 h2 : String) :
    (ImageProcessor.compareImagesCore h1 h2).similarity
        = 1 - (ImageProcessor.hammingDistance h1 h2 : ℚ) / 64
    ∧ ((ImageProcessor.compareImagesCore h1 h2).isSimilar = true
        ↔ (ImageProcessor.compareImagesCore h1 h2).similarity > (85 : ℚ) / 100)
    ∧ (ImageProcessor.hammingDistance h1 h2 = 9
        → (ImageProcessor.compareImagesCore h1 h2).isSimilar = true)
    ∧ (ImageProcessor.hammingDistance h1 h2 = 10
        → (ImageProcessor.compareImagesCore h1 h2).isSimilar = false) := by
  refine ⟨rfl, ?_, ?_, ?_⟩
  · unfold ImageProcessor.compareImagesCore
    simp only [decide_eq_true_eq]
  · intro h9
    unfold ImageProcessor.compareImagesCore
    simp only [h9]
    rw [decide_eq_true_eq]
    norm_num
  · intro h10
    unfold ImageProcessor.compareImagesCore
    simp only [h10]
    rw [decide_eq_false_iff_not]
    norm_num

/-- Witness for C6 at the threshold boundary: two concrete pairs of
hash strings at Hamming distance 9 and 10 respectively. -/
theorem comparator_strict_cutoff_witness :
    (ImageProcessor.compareImagesCore "0000000000" "1111111110").isSimilar = true
    ∧ (ImageProcessor.compareImagesCore "0000000000" "1111111111").isSimilar = false :=
  ⟨(comparator_similarity_formula_and_strict_cutoff "0000000000" "1111111110").2.2.1
      (by decide),
   (comparator_similarity_formula_and_strict_cutoff "0000000000" "1111111111").2.2.2
      (by decide)⟩

/-- C9: when the two hash strings have different lengths, the
comparator pads the shorter one with the character `'0'` up to the
longer length and then counts differing characters at matching
positions. -/
theorem hammingDistance_pads_shorter_with_zero (s1 s2 : String)
    (h : s1.length ≠ s2.length) :
    ImageProcessor.hammingDistance s1 s2 = hammingDistancePadSpec s1 s2 := by
  unfold ImageProcessor.hammingDistance hammingDistancePadSpec jsPadEnd
  rcases Nat.lt_or_ge s1.length s2.length with hlt | hge
  · rw [if_pos hlt]
    show countDiffChars (s1.data ++ List.replicate (max s1.length s2.length - s1.length) '0')
        (s2.data ++ List.replicate (max s1.length s2.length - s2.length) '0')
      = countDiffChars (s1.data ++ List.replicate (s2.length - s1.length) '0') s2.data
    rw [Nat.max_eq_right hlt.le, Nat.sub_self, List.replicate_zero, List.append_nil]
  · rw [if_neg (Nat.not_lt.mpr hge)]
    show countDiffChars (s1.data ++ List.replicate (max s1.length s2.length - s1.length) '0')
        (s2.data ++ List.replicate (max s1.length s2.length - s2.length) '0')
      = countDiffChars s1.data (s2.data ++ List.replicate (s1.length - s2.length) '0')
    rw [Nat.max_eq_left hge, Nat.sub_self, List.replicate_zero, List.append_nil]

/-- Witness for C9 at a concrete length-mismatched pair. -/
theorem hammingDistance_pads_shorter_witness :
    ImageProcessor.hammingDistance "ab" "a" = hammingDistancePadSpec "ab" "a" :=
  hammingDistance_pads_shorter_with_zero "ab" "a" (by decide)

/-- C10: the comparator's similarity output is symmetric in its two
hash-string arguments. -/
theorem comparator_similarity_symmetric (h1 h2 : String) :
    (ImageProcessor.compareImagesCore h1 h2).similarity
      = (ImageProcessor.compareImagesCore h2 h1).similarity := by
  unfold ImageProcessor.compareImagesCore
  simp only
  rw [hammingDistance_comm]

/-! ### Lemmas and claims on the dHash bit layout (C7) -/

theorem testBit_dHashLoop : ∀ (rest : List Nat) (prev i hash b : Nat),
    Nat.testBit (dHashLoop prev i hash rest) b
      = (Nat.testBit hash b || adjBit b prev i rest) := by
  intro rest
  induction rest with
  | nil => intro prev i hash b; simp [dHashLoop, adjBit]
  | cons cur rs ih =>
    intro prev i hash b
    unfold dHashLoop adjBit
    rw [ih]
    by_cases hc : prev < cur
    · rw [if_pos hc, Nat.testBit_lor, Nat.testBit_two_pow, decide_eq_true hc]
      cases Nat.testBit hash b <;> cases hb : decide ((i - 1) % 32 = b) <;>
        cases hA : adjBit b cur (i + 1) rs <;> simp
    · rw [if_neg hc, decide_eq_false hc]
      cases Nat.testBit hash b <;> simp

theorem adjBit_iff : ∀ (rest : List Nat) (prev i b : Nat), 1 ≤ i →
    (adjBit b prev i rest = true
      ↔ ∃ k, k < rest.length ∧ (i - 1 + k) % 32 = b
          ∧ (if k = 0 then prev else rest.getD (k - 1) 0) < rest.getD k 0) := by
  intro rest
  induction rest with
  | nil =>
    intro prev i b _
    simp [adjBit]
  | cons cur rs ih =>
    intro prev i b hi
    unfold adjBit
    rw [Bool.or_eq_true, Bool.and_eq_true, decide_eq_true_eq, decide_eq_true_eq,
      ih cur (i + 1) b (by omega)]
    constructor
    · rintro (⟨hb, hc⟩ | ⟨k, hk, hb, hc⟩)
      · exact ⟨0, by simp, by simpa using hb, by simpa using hc⟩
      · refine ⟨k + 1, by simp; omega, ?_, ?_⟩
        · have : i - 1 + (k + 1) = i + 1 - 1 + k := by omega
          rw [this]; exact hb
        · simp only [Nat.add_sub_cancel]
          have h1 : (cur :: rs).getD (k + 1) 0 = rs.getD k 0 := by simp
          rw [h1]
          cases k with
          | zero => simpa using hc
          | succ k' =>
            have h2 : (cur :: rs).getD (k' + 1) 0 = rs.getD k' 0 := by simp
            simpa [h2] using hc
    · rintro ⟨k, hk, hb, hc⟩
      cases k with
      | zero =>
        left
        exact ⟨by simpa using hb, by simpa using hc⟩
      | succ k' =>
        right
        refine ⟨k', by simp at hk; omega, ?_, ?_⟩
        · have : i + 1 - 1 + k' = i - 1 + (k' + 1) := by omega
          rw [this]; exact hb
        · simp only [Nat.add_sub_cancel] at hc
          have h1 : (cur :: rs).getD (k' + 1) 0 = rs.getD k' 0 := by simp
          rw [h1] at hc
          cases k' with
          | zero => simpa using hc
          | succ k'' =>
            have h2 : (cur :: rs).getD (k'' + 1) 0 = rs.getD k'' 0 := by simp
            simpa [h2] using hc

theorem dHashLoop_lt : ∀ (rest : List Nat) (prev i hash : Nat),
    hash < 2 ^ 32 → dHashLoop prev i hash rest < 2 ^ 32 := by
  intro rest
  induction rest with
  | nil => intro prev i hash h; exact h
  | cons cur rs ih =>
    intro prev i hash h
    unfold dHashLoop
    apply ih
    by_cases hc : prev < cur
    · rw [if_pos hc]
      refine Nat.or_lt_two_pow h ?_
      have hm : (i - 1) % 32 < 32 := Nat.mod_lt _ (by norm_num)
      exact Nat.pow_lt_pow_right (by norm_num) hm
    · rw [if_neg hc]; exact h

/-- C7 (amended): the perceptual hash folds the adjacent-pixel
comparisons into a 32-bit value — bit `b` of the accumulator is set
exactly when some index `i ≥ 1` of the flattened grid has
`(i-1) % 32 = b` and `pixel[i] > pixel[i-1]` (JS bitwise operators
reduce shift counts mod 32), and the accumulator is always below
`2^32`; the comparison bits are not kept apart in a 64-bit word. -/
theorem dHashBits_mod32_characterization (data : List Nat) (b : Nat) :
    ImageProcessor.dHashBits data < 2 ^ 32
    ∧ (Nat.testBit (ImageProcessor.dHashBits data) b = true
        ↔ ∃ i, 1 ≤ i ∧ i < data.length ∧ (i - 1) % 32 = b
            ∧ data.getD (i - 1) 0 < data.getD i 0) := by
  cases data with
  | nil =>
    refine ⟨by norm_num [ImageProcessor.dHashBits], ?_⟩
    simp [ImageProcessor.dHashBits]
  | cons d0 rest =>
    refine ⟨dHashLoop_lt rest d0 1 0 (by norm_num), ?_⟩
    unfold ImageProcessor.dHashBits
    rw [testBit_dHashLoop, Nat.zero_testBit, Bool.false_or,
      adjBit_iff rest d0 1 b (by omega)]
    constructor
    · rintro ⟨k, hk, hb, hc⟩
      refine ⟨k + 1, by omega, by simp; omega, by simpa using hb, ?_⟩
      have h1 : (d0 :: rest).getD (k + 1) 0 = rest.getD k 0 := by simp
      rw [Nat.add_sub_cancel, h1]
      cases k with
      | zero => simpa using hc
      | succ k' =>
        have h2 : (d0 :: rest).getD (k' + 1) 0 = rest.getD k' 0 := by simp
        simpa [h2] using hc
    · rintro ⟨i, hi1, hilen, hb, hc⟩
      cases i with
      | zero => omega
      | succ k =>
        refine ⟨k, by simp at hilen; omega, by simpa using hb, ?_⟩
        have h1 : (d0 :: rest).getD (k + 1) 0 = rest.getD k 0 := by simp
        rw [Nat.add_sub_cancel, h1] at hc
        cases k with
        | zero => simpa using hc
        | succ k' =>
          have h2 : (d0 :: rest).getD (k' + 1) 0 = rest.getD k' 0 := by simp
          simpa [h2] using hc

/-- Counterexample to C7 as stated: on the concrete 64-pixel sample
`dataC7`, `pixel[33] > pixel[32]` yet bit 32 of the hash is clear,
and `pixel[1] ≤ pixel[0]` yet bit 0 of the hash is set — the
comparison at `i = 33` lands on bit `(33-1) % 32 = 0`, not bit 32, so
the hash is not the claimed 64-bit-wide packing. -/
theorem dHashBits_not_64bit_counterexample :
    dataC7.length = 64
    ∧ dataC7.getD 33 0 > dataC7.getD 32 0
    ∧ Nat.testBit (ImageProcessor.dHashBits dataC7) 32 = false
    ∧ ¬(dataC7.getD 1 0 > dataC7.getD 0 0)
    ∧ Nat.testBit (ImageProcessor.dHashBits dataC7) 0 = true := by
  refine ⟨by decide, by decide, by decide, by decide, by decide⟩

/-! ### Claim theorems: decision engine (C1, C3, C4, C5, C8) -/

/-- C8: the duplicate decision call never fails: the outer catch turns
every exception escaping the pipeline body into a plain no-duplicate
decision value, so for every environment — including ones whose
decode, file read, AI call or even SHA-256 computation throw — the
caller observes a `DupResults` value and never a propagated error. -/
theorem detectDuplicates_never_throws (env : Env) (buf : Buffer)
    (assets : List Asset) :
    (∀ e t, AIService.detectDuplicatesTry env buf assets = (.error e, t)
        → AIService.detectDuplicates env buf assets = (AIService.dupFallback e, t)
          ∧ (AIService.dupFallback e).isDuplicate = false)
    ∧ (∀ r t, AIService.detectDuplicatesTry env buf assets = (.ok r, t)
        → AIService.detectDuplicates env buf assets = (r, t)) := by
  constructor
  · intro e t h
    refine ⟨?_, rfl⟩
    unfold AIService.detectDuplicates
    rw [h]
  · intro r t h
    unfold AIService.detectDuplicates
    rw [h]

/-- Witness for C8: a run in which the SHA-256 computation itself
throws is absorbed into the fallback decision value. -/
theorem detectDuplicates_never_throws_witness :
    AIService.detectDuplicates envC8 [] []
      = (AIService.dupFallback "boom", { phashComputed := false, aiCalls := 0 }) :=
  ((detectDuplicates_never_throws envC8 [] []).1 "boom"
    { phashComputed := false, aiCalls := 0 } rfl).1

/-- Counterexample to C1 as stated: with two candidates sharing the
upload's digest, the exact path returns one match per matching
candidate — two matches, not a single match. -/
theorem detectDuplicates_single_match_counterexample :
    envC1.sha256 [] = .ok "h"
    ∧ (∃ a ∈ [assetC1a, assetC1b], AIService.assetHashIs a "h" = true)
    ∧ (AIService.detectDuplicates envC1 [] [assetC1a, assetC1b]).1.matchList.length = 2
    ∧ (AIService.detectDuplicates envC1 [] [assetC1a, assetC1b]).1.matchList.length ≠ 1 := by
  refine ⟨rfl, ⟨assetC1a, by simp, by decide⟩, by with_unfolding_all decide,
    by with_unfolding_all decide⟩

/-- C1 (amended): whenever some candidate's stored hash equals the
SHA-256 digest of the uploaded bytes, `detectDuplicates` returns
`isDuplicate = true`, confidence 1.0, one match per exact-matching
candidate — each with method `sha256` (the spec's `exact`) and
confidence 1.0 — and returns immediately: the perceptual hash is
never computed and the AI judge is never invoked. -/
theorem detectDuplicates_exact_match_early_return
    (env : Env) (buf : Buffer) (assets : List Asset) (h : String)
    (hsha : env.sha256 buf = .ok h)
    (hex : ∃ a ∈ assets, AIService.assetHashIs a h = true) :
    AIService.detectDuplicates env buf assets =
      ({ isDuplicate := true
         confidence := 1
         matchList := (assets.filter fun a => AIService.assetHashIs a h).map fun a =>
           { assetId := a.mongoId
             method := AIService.MatchMethod.sha256
             confidence := 1
             reason := AIService.Reason.exactHashMatch }
         methods := { sha256 := true, perceptual := false, ai := false }
         error := none },
       { phashComputed := false, aiCalls := 0 }) := by
  obtain ⟨a, ha, hh⟩ := hex
  have hmem : a ∈ assets.filter fun x => AIService.assetHashIs x h :=
    List.mem_filter.mpr ⟨ha, hh⟩
  have hpos : 0 < (assets.filter fun x => AIService.assetHashIs x h).length :=
    List.length_pos.mpr (List.ne_nil_of_mem hmem)
  unfold AIService.detectDuplicates AIService.detectDuplicatesTry
  rw [hsha]
  simp only [hpos, if_pos]

/-- Witness for C1 (amended) at a concrete run with one matching
candidate. -/
theorem detectDuplicates_exact_match_witness :
    AIService.detectDuplicates envC1 [] [assetC1a] =
      ({ isDuplicate := true
         confidence := 1
         matchList := ([assetC1a].filter fun a => AIService.assetHashIs a "h").map fun a =>
           { assetId := a.mongoId
             method := AIService.MatchMethod.sha256
             confidence := 1
             reason := AIService.Reason.exactHashMatch }
         methods := { sha256 := true, perceptual := false, ai := false }
         error := none },
       { phashComputed := false, aiCalls := 0 }) :=
  detectDuplicates_exact_match_early_return envC1 [] [assetC1a] "h" rfl
    ⟨assetC1a, by simp, by decide⟩

theorem detectTry_sha_error (env : Env) (buf : Buffer) (assets : List Asset)
    (e : String) (hsha : env.sha256 buf = .error e) :
    AIService.detectDuplicatesTry env buf assets
      = (.error e, { phashComputed := false, aiCalls := 0 }) := by
  unfold AIService.detectDuplicatesTry
  rw [hsha]

theorem detectTry_exact (env : Env) (buf : Buffer) (assets : List Asset)
    (h : String) (hsha : env.sha256 buf = .ok h)
    (hpos : 0 < (assets.filter fun x => AIService.assetHashIs x h).length) :
    AIService.detectDuplicatesTry env buf assets
      = (.ok { isDuplicate := true
               confidence := 1
               matchList := (assets.filter fun a => AIService.assetHashIs a h).map fun a =>
                 { assetId := a.mongoId
                   method := AIService.MatchMethod.sha256
                   confidence := 1
                   reason := AIService.Reason.exactHashMatch }
               methods := { sha256 := true, perceptual := false, ai := false }
               error := none },
         { phashComputed := false, aiCalls := 0 }) := by
  unfold AIService.detectDuplicatesTry
  rw [hsha]
  simp only [hpos, if_pos]

theorem detectTry_noExact_noPhash (env : Env) (buf : Buffer)
    (assets : List Asset) (h : String)
    (hsha : env.sha256 buf = .ok h) (hph : env.phashMod = none)
    (hneg : ¬ 0 < (assets.filter fun x => AIService.assetHashIs x h).length) :
    AIService.detectDuplicatesTry env buf assets
      = (.ok AIService.emptyResults, { phashComputed := false, aiCalls := 0 }) := by
  unfold AIService.detectDuplicatesTry
  rw [hsha]
  simp only [hneg, if_neg, hph]
  rfl

/-- C3: with the module-level `phash` variable unassigned (its import
is commented out), the perceptual and AI branches of
`detectDuplicates` are unreachable: the returned `methods.perceptual`
and `methods.ai` are always false, the perceptual hasher and the AI
judge are never invoked, and the decision reports `isDuplicate = true`
exactly when the SHA-256 digest succeeds and some candidate stores
that exact digest — pure SHA-256 exact matching. -/
theorem detectDuplicates_pure_sha256_when_phash_absent
    (sha : Buffer → Except String String)
    (sharpFn : Buffer → Except String (List Nat))
    (readFileFn : String → Except String Buffer)
    (groqFn : Buffer → Buffer → Except String AIVerdict)
    (buf : Buffer) (assets : List Asset) :
    (AIService.detectDuplicates ⟨sha, none, sharpFn, readFileFn, groqFn⟩ buf
        assets).1.methods.perceptual = false
    ∧ (AIService.detectDuplicates ⟨sha, none, sharpFn, readFileFn, groqFn⟩ buf
        assets).1.methods.ai = false
    ∧ (AIService.detectDuplicates ⟨sha, none, sharpFn, readFileFn, groqFn⟩ buf
        assets).2 = { phashComputed := false, aiCalls := 0 }
    ∧ ((AIService.detectDuplicates ⟨sha, none, sharpFn, readFileFn, groqFn⟩ buf
          assets).1.isDuplicate = true
        ↔ ∃ h, sha buf = .ok h ∧ ∃ a ∈ assets, AIService.assetHashIs a h = true) := by
  cases hsha : sha buf with
  | error e =>
    rw [show AIService.detectDuplicates ⟨sha, none, sharpFn, readFileFn, groqFn⟩
          buf assets = (AIService.dupFallback e, ⟨false, 0⟩) by
        unfold AIService.detectDuplicates
        rw [detectTry_sha_error _ _ _ e hsha]]
    refine ⟨rfl, rfl, rfl, ?_⟩
    constructor
    · intro hfalse; exact absurd hfalse (by simp [AIService.dupFallback])
    · rintro ⟨h', hh', -⟩
      exact absurd hh' (by simp)
  | ok h =>
    by_cases hpos : 0 < (assets.filter fun x => AIService.assetHashIs x h).length
    · rw [show AIService.detectDuplicates ⟨sha, none, sharpFn, readFileFn, groqFn⟩
            buf assets = _ by
          unfold AIService.detectDuplicates
          rw [detectTry_exact _ _ _ h hsha hpos]]
      refine ⟨rfl, rfl, rfl, ?_⟩
      simp only [true_iff]
      obtain ⟨a, hmem⟩ := List.exists_mem_of_length_pos hpos
      exact ⟨h, rfl, a, (List.mem_filter.mp hmem).1, (List.mem_filter.mp hmem).2⟩
    · rw [show AIService.detectDuplicates ⟨sha, none, sharpFn, readFileFn, groqFn⟩
            buf assets = (AIService.emptyResults, ⟨false, 0⟩) by
          unfold AIService.detectDuplicates
          rw [detectTry_noExact_noPhash _ _ _ h hsha rfl hpos]]
      refine ⟨rfl, rfl, rfl, ?_⟩
      constructor
      · intro hfalse; exact absurd hfalse (by simp [AIService.emptyResults])
      · rintro ⟨h', hh', a, ha, hhash⟩
        simp only [Except.ok.injEq] at hh'
        subst hh'
        have hm : a ∈ assets.filter fun x => AIService.assetHashIs x h :=
          List.mem_filter.mpr ⟨ha, hhash⟩
        exact absurd (List.length_pos.mpr (List.ne_nil_of_mem hm)) hpos

/-- C4: evaluation of the code at the failing input.  With the
perceptual module enabled, a candidate at perceptual similarity `7/8`
(above the 0.85 threshold, below 0.9) and an AI judge that affirms
same-ness on the top match, `detectDuplicates` still returns
`methods.ai = false` and confidence `7/8 < 0.9`: the upgrade branch
tests `aiComparison.result`, a key the returned comparison object
does not have, so the affirmative verdict is dropped and neither the
method-set upgrade nor the 0.9 confidence floor ever happens. -/
theorem detectDuplicates_ai_affirm_ignored :
    envC4.groq [] [1] = .ok { result := some true, message := some "same" }
    ∧ (AIService.detectDuplicates envC4 [] [assetC4]).1.isDuplicate = true
    ∧ (AIService.detectDuplicates envC4 [] [assetC4]).1.methods.perceptual = true
    ∧ (AIService.detectDuplicates envC4 [] [assetC4]).2
        = { phashComputed := true, aiCalls := 1 }
    ∧ (AIService.detectDuplicates envC4 [] [assetC4]).1.methods.ai = false
    ∧ (AIService.detectDuplicates envC4 [] [assetC4]).1.confidence = 7 / 8
    ∧ (7 : ℚ) / 8 < 9 / 10 := by
  refine ⟨rfl, by with_unfolding_all decide, by with_unfolding_all decide,
    by with_unfolding_all decide, by with_unfolding_all decide,
    by with_unfolding_all decide, by norm_num⟩

/-- Counterexample to C5 as stated: the combined result is the OR of
the AI verdict and the local similarity flag, so with a
local comparison reporting `isSimilar = false` and an affirming AI
verdict, `isDuplicate` is `true` — the AI verdict is the sole basis. -/
theorem combined_sole_ai_basis_counterexample :
    lcC5.isSimilar = false
    ∧ (AIService.mkCombinedResult { result := some true, message := some "identical" }
        lcC5).isDuplicate = true :=
  ⟨rfl, rfl⟩

/-- C5 (amended): when the local hash comparison reports
`isSimilar = false`, the combined result's `isDuplicate` equals the
AI's verdict (`result`, with a missing key read as `false`): the code
ORs the two signals instead of gating the AI verdict on the local
one.  (With this hasher the hypothesis is unreachable from real
image pairs, since every successful local comparison reports
`isSimilar = true`.) -/
theorem combined_isDuplicate_is_ai_verdict_when_local_dissents
    (v : AIVerdict) (lc : ImageProcessor.CompareResult)
    (h : lc.isSimilar = false) :
    (AIService.mkCombinedResult v lc).isDuplicate = v.result.getD false := by
  unfold AIService.mkCombinedResult
  simp only [h, Bool.or_false]

/-- Witness for C5 (amended) at a concrete dissenting comparison. -/
theorem combined_isDuplicate_is_ai_verdict_witness :
    (AIService.mkCombinedResult { result := some true, message := none }
        lcC5).isDuplicate
      = (some true).getD false :=
  combined_isDuplicate_is_ai_verdict_when_local_dissents
    { result := some true, message := none } lcC5 rfl
